import Mathlib

/-!
Shallow embedding of the Smart Grocery Basket backend's Product subsystem:
the mongoose `Product` schema (src/models/Product.js), the Express route
handlers (src/routes/productRoutes.js, the complete `success`-envelope
version), and the pagination configuration (the config module).

Modelling conventions:
* The document store is a `List Product`; mongoose's unique index on
  `productId` appears as the duplicate check inside `createProduct`.
* JS strings are Lean `String`s; `String.trim` embeds `String.prototype.trim`.
* JS numbers that the routes treat as integers (`parseInt`-ed query
  parameters, prices, stock counts) are embedded as `Int`; only their
  ordering and arithmetic matter to the verified properties.
* An absent (`undefined`) JSON field is `Option.none`; JS truthiness of a
  string-valued field (`!x`) is `jsFalsy`.
* Timestamps (`createdAt`/`updatedAt`, mongoose `timestamps: true`) are
  abstract `Nat` clocks supplied by the caller.
-/

namespace SmartGrocery

/-- A stored Product document, after mongoose setters (trim) and defaults
have been applied — the shape that `save` / `findOneAndUpdate` persist.
Fields follow src/models/Product.js. -/
structure Product where
  productId : String
  name : String
  mrpPrice : Int
  image : String
  stock : Int
  category : String
  discounts : String
  expiryDate : Option String
  createdAt : Nat
  updatedAt : Nat
  deriving DecidableEq

/-- A JSON request body (`req.body`) as the routes read it: every schema
field optionally present. `none` is JS `undefined`. -/
structure Body where
  productId : Option String := none
  name : Option String := none
  mrpPrice : Option Int := none
  image : Option String := none
  stock : Option Int := none
  category : Option String := none
  discounts : Option String := none
  expiryDate : Option String := none
  deriving DecidableEq

/-- Drop leading whitespace characters from a character list. -/
def dropLeadingWs : List Char → List Char
  | [] => []
  | c :: cs => if c.isWhitespace then dropLeadingWs cs else c :: cs

/-- Embedding of `String.prototype.trim` (and of the mongoose `trim: true`
setter): remove leading and trailing whitespace. Defined over the
character list so that the kernel can evaluate it on literals. -/
def jsTrim (s : String) : String :=
  ⟨(dropLeadingWs (dropLeadingWs s.data).reverse).reverse⟩

/-- JS truthiness test `!x` for an optional string field: `undefined` and
the empty string are falsy. -/
def jsFalsy : Option String → Bool
  | none => true
  | some s => s == ""

/-- The fixed category enumeration from the schema (and the config module's
`productCategories`). -/
def categories : List String :=
  ["Dairy", "Fruits", "Vegetables", "Grocery", "Bakery", "Beverages", "Snacks", "Other"]

/-- config.defaultPageSize from the configuration module. -/
def defaultPageSize : Int := 50

/-- config.maxPageSize from the configuration module (declared there; the
list route is the code under scrutiny for whether it applies it). -/
def maxPageSize : Int := 100

/-- The schema's expiryDate validator: the test of the fixed regular
expression `\d{4}-\d{2}-\d{2}` anchored at both ends. -/
def expiryFormatOk (s : String) : Bool :=
  match s.data with
  | [y1, y2, y3, y4, h1, m1, m2, h2, d1, d2] =>
      y1.isDigit && y2.isDigit && y3.isDigit && y4.isDigit && h1 == '-' &&
      m1.isDigit && m2.isDigit && h2 == '-' && d1.isDigit && d2.isDigit
  | _ => false

/-- The document mongoose builds from a request body before validating and
saving it: `trim` setters applied, schema defaults filled in for absent
fields, timestamps set. `mrpPrice`/`stock` defaults are only reached behind
the route's presence pre-check. -/
def mkDoc (b : Body) (now : Nat) : Product where
  productId := jsTrim (b.productId.getD "")
  name := jsTrim (b.name.getD "")
  mrpPrice := b.mrpPrice.getD 0
  image := (b.image.map jsTrim).getD "https://via.placeholder.com/100"
  stock := b.stock.getD 0
  category := (b.category.map jsTrim).getD "Other"
  discounts := (b.discounts.map jsTrim).getD ""
  expiryDate := b.expiryDate
  createdAt := now
  updatedAt := now

/-- productId path validation on save: `required`. -/
def productIdErrors (d : Product) : List String :=
  if d.productId = "" then ["Product ID is required"] else []

/-- name path validation on save: `required`, then `maxLength` 200. -/
def nameErrors (d : Product) : List String :=
  if d.name = "" then ["Product name is required"]
  else if 200 < d.name.length then ["Product name cannot exceed 200 characters"]
  else []

/-- mrpPrice path validation on save: `min: 0` (the custom validator checks
the same `v >= 0` condition, so the min message is the one reported). -/
def priceErrors (d : Product) : List String :=
  if d.mrpPrice < 0 then ["Price cannot be negative"] else []

/-- stock path validation on save: `min: 0`. -/
def stockErrors (d : Product) : List String :=
  if d.stock < 0 then ["Stock cannot be negative"] else []

/-- category path validation on save: membership in the fixed enum. -/
def categoryErrors (d : Product) : List String :=
  if d.category ∈ categories then [] else ["Category must be one of the predefined values"]

/-- expiryDate path validation on save: the format regex, with empty and
absent values allowed (`if (!v) return true`). -/
def expiryErrors (d : Product) : List String :=
  match d.expiryDate with
  | none => []
  | some s =>
      if s = "" then []
      else if expiryFormatOk s then []
      else ["Expiry date must be in YYYY-MM-DD format"]

/-- Mongoose full-document validation on `save`: one message per violated
path, collected across all paths (`Object.values(error.errors)` in the
routes maps them to the `details` list). -/
def fieldErrors (d : Product) : List String :=
  productIdErrors d ++ nameErrors d ++ priceErrors d ++ stockErrors d ++
    categoryErrors d ++ expiryErrors d

/-- The create route's presence pre-check:
`!productId || !name || mrpPrice === undefined || stock === undefined`. -/
def missingRequired (b : Body) : Bool :=
  jsFalsy b.productId || jsFalsy b.name || b.mrpPrice.isNone || b.stock.isNone

/-- Outcome of `POST /api/products`. -/
inductive CreateResult
  | missingFields (error : String)
  | conflict (error : String)
  | validationFailed (error : String) (details : List String)
  | created (data : Product)
  deriving DecidableEq

/-- HTTP status the create route sends for each outcome. -/
def CreateResult.status : CreateResult → Nat
  | missingFields _ => 400
  | conflict _ => 409
  | validationFailed _ _ => 400
  | created _ => 201

/-- The create route `POST /api/products`: presence pre-check, then the `findOne({productId})`
duplicate pre-check on the raw body value, then mongoose validation, then
the insert guarded by the unique index on `productId` (a violation surfaces
as the driver error `code === 11000`, mapped to 409). Returns the response
outcome and the store after the request. -/
def createProduct (store : List Product) (b : Body) (now : Nat) :
    CreateResult × List Product :=
  if missingRequired b then
    (.missingFields "Missing required fields: productId, name, mrpPrice, and stock are required",
      store)
  else if store.any (fun p => p.productId == b.productId.getD "") then
    (.conflict "Product with this ID already exists", store)
  else
    let doc := mkDoc b now
    let errs := fieldErrors doc
    if errs.isEmpty then
      if store.any (fun p => p.productId == doc.productId) then
        (.conflict "Product with this ID already exists", store)
      else
        (.created doc, store ++ [doc])
    else
      (.validationFailed "Validation failed" errs, store)

/-- Outcome of `GET /api/products/:id`. -/
inductive GetResult
  | badRequest (error : String)
  | notFound (error : String)
  | found (data : Product)
  deriving DecidableEq

/-- HTTP status the get-by-id route sends for each outcome. -/
def GetResult.status : GetResult → Nat
  | badRequest _ => 400
  | notFound _ => 404
  | found _ => 200

/-- The get route `GET /api/products/:id`: blank-id guard (`!id || id.trim() === ''`),
then `findOne({ productId: id.trim() })`. -/
def getProduct (store : List Product) (id : String) : GetResult :=
  if jsTrim id = "" then .badRequest "Product ID is required"
  else
    match store.find? (fun p => p.productId == jsTrim id) with
    | none => .notFound "Product not found"
    | some p => .found p

/-- Update validators (`runValidators: true`) run on the paths the patch
sets: the `$set` document is `{...req.body, productId: id.trim()}`, so the
productId path is validated at the trimmed path id and each body field at
its (trimmed) value; absent fields are not validated. -/
def patchErrors (id : String) (b : Body) : List String :=
  (if jsTrim id = "" then ["Product ID is required"] else []) ++
  (match b.name with
   | none => []
   | some n =>
       if jsTrim n = "" then ["Product name is required"]
       else if 200 < (jsTrim n).length then ["Product name cannot exceed 200 characters"]
       else []) ++
  (match b.mrpPrice with
   | none => []
   | some v => if v < 0 then ["Price cannot be negative"] else []) ++
  (match b.stock with
   | none => []
   | some v => if v < 0 then ["Stock cannot be negative"] else []) ++
  (match b.category with
   | none => []
   | some c =>
       if jsTrim c ∈ categories then []
       else ["Category must be one of the predefined values"]) ++
  (match b.expiryDate with
   | none => []
   | some s =>
       if s = "" then []
       else if expiryFormatOk s then []
       else ["Expiry date must be in YYYY-MM-DD format"])

/-- Field-by-field application of the `$set` document
`{...req.body, productId: id.trim()}` to a stored product: absent body
fields leave the stored values untouched; `updatedAt` is refreshed. -/
def applyPatch (p : Product) (id : String) (b : Body) (now : Nat) : Product where
  productId := jsTrim id
  name := (b.name.map jsTrim).getD p.name
  mrpPrice := b.mrpPrice.getD p.mrpPrice
  image := (b.image.map jsTrim).getD p.image
  stock := b.stock.getD p.stock
  category := (b.category.map jsTrim).getD p.category
  discounts := (b.discounts.map jsTrim).getD p.discounts
  expiryDate := (b.expiryDate.map some).getD p.expiryDate
  createdAt := p.createdAt
  updatedAt := now

/-- Replace the first product whose id matches (the single document
`findOneAndUpdate` rewrites). -/
def replaceFirstById (id : String) (q : Product) : List Product → List Product
  | [] => []
  | p :: rest =>
      if p.productId == id then q :: rest else p :: replaceFirstById id q rest

/-- Outcome of `PUT /api/products/:id`. -/
inductive UpdateResult
  | badRequestId (error : String)
  | badRequestProductId (error : String)
  | validationFailed (error : String) (details : List String)
  | notFound (error : String)
  | updated (data : Product)
  deriving DecidableEq

/-- HTTP status the update route sends for each outcome. -/
def UpdateResult.status : UpdateResult → Nat
  | badRequestId _ => 400
  | badRequestProductId _ => 400
  | validationFailed _ _ => 400
  | notFound _ => 404
  | updated _ => 200

/-- The update route `PUT /api/products/:id`: blank-id guard; then the productId-change guard
`req.body.productId && req.body.productId !== id` (JS truthiness on the raw
body value, comparison against the raw path id); then
`findOneAndUpdate({productId: id.trim()}, {...req.body, productId: id.trim()},
{new: true, runValidators: true})`. Update validators run while the query is
prepared, before the lookup reaches the store. -/
def updateProduct (store : List Product) (id : String) (b : Body) (now : Nat) :
    UpdateResult × List Product :=
  if jsTrim id = "" then (.badRequestId "Product ID is required", store)
  else if (match b.productId with
           | none => false
           | some pid => !(pid == "") && !(pid == id)) then
    (.badRequestProductId "Cannot change product ID", store)
  else
    let errs := patchErrors id b
    if errs.isEmpty then
      match store.find? (fun p => p.productId == jsTrim id) with
      | none => (.notFound "Product not found", store)
      | some p =>
          let p2 := applyPatch p id b now
          (.updated p2, replaceFirstById (jsTrim id) p2 store)
    else (.validationFailed "Validation failed" errs, store)

/-- Outcome of `DELETE /api/products/:id`. -/
inductive DeleteResult
  | badRequest (error : String)
  | notFound (error : String)
  | deleted (data : Product)
  deriving DecidableEq

/-- HTTP status the delete route sends for each outcome. -/
def DeleteResult.status : DeleteResult → Nat
  | badRequest _ => 400
  | notFound _ => 404
  | deleted _ => 200

/-- Remove the first product whose id matches (the single document
`findOneAndDelete` removes). -/
def removeFirstById (id : String) : List Product → List Product
  | [] => []
  | p :: rest => if p.productId == id then rest else p :: removeFirstById id rest

/-- The delete route `DELETE /api/products/:id`: blank-id guard, then
`findOneAndDelete({ productId: id.trim() })`, 404 when nothing matched,
otherwise the deleted document is returned in the response. -/
def deleteProduct (store : List Product) (id : String) : DeleteResult × List Product :=
  if jsTrim id = "" then (.badRequest "Product ID is required", store)
  else
    match store.find? (fun p => p.productId == jsTrim id) with
    | none => (.notFound "Product not found", store)
    | some p => (.deleted p, removeFirstById (jsTrim id) store)

/-- The query string of `GET /api/products` as the route destructures it.
`page` and `limit` are modelled as the integers `parseInt` yields on
decimal parameters; `none` is an absent parameter (destructuring defaults
1 and 50 then apply). -/
structure ListQuery where
  category : Option String := none
  inStock : Option String := none
  page : Option Int := none
  limit : Option Int := none
  search : Option String := none
  deriving DecidableEq

/-- Whether the first character list is an initial segment of the second. -/
def startsWithChars : List Char → List Char → Bool
  | [], _ => true
  | _ :: _, [] => false
  | a :: as, b :: bs => a == b && startsWithChars as bs

/-- Whether the needle occurs contiguously inside the haystack. -/
def containsChars (needle : List Char) : List Char → Bool
  | [] => needle.isEmpty
  | c :: cs => startsWithChars needle (c :: cs) || containsChars needle cs

/-- The `$text` search over the text index on `name` and `category`, modelled
as a substring match on the indexed fields (the spec's stated fallback
semantics for stores without relevance ranking). -/
def textMatches (needle : String) (p : Product) : Bool :=
  containsChars needle.data p.name.data || containsChars needle.data p.category.data

/-- The composed filter the route builds: exact `category` match when the
parameter is truthy, `stock > 0` when `inStock === 'true'`, text search
when `search` is truthy. -/
def matchesFilter (q : ListQuery) (p : Product) : Bool :=
  (jsFalsy q.category || p.category == q.category.getD "") &&
  (!(q.inStock == some "true") || decide (0 < p.stock)) &&
  (jsFalsy q.search || textMatches (q.search.getD "") p)

/-- Effective page number: destructuring default 1 when absent. -/
def effPage (q : ListQuery) : Int := q.page.getD 1

/-- Effective limit: destructuring default 50 when absent. -/
def effLimit (q : ListQuery) : Int := q.limit.getD 50

/-- The `(skip, limit)` pair the route passes to the store. -/
structure PageSpec where
  skip : Int
  limit : Int
  deriving DecidableEq

/-- The pagination directive built by the route:
`skip = (parseInt(page) - 1) * parseInt(limit)` and the parsed limit. -/
def buildPagination (q : ListQuery) : PageSpec :=
  ⟨(effPage q - 1) * effLimit q, effLimit q⟩

/-- Insertion step for the `sort({ createdAt: -1 })` ordering. -/
def insertByCreatedDesc (p : Product) : List Product → List Product
  | [] => [p]
  | q :: rest =>
      if q.createdAt < p.createdAt then p :: q :: rest
      else q :: insertByCreatedDesc p rest

/-- The `sort({ createdAt: -1 })` ordering: most recently created first. -/
def sortByCreatedDesc (l : List Product) : List Product :=
  l.foldl (fun acc p => insertByCreatedDesc p acc) []

/-- JS `Math.ceil(a / b)` on integers, for a nonzero divisor. -/
def jsCeilDiv (a b : Int) : Int := -(Int.fdiv (-a) b)

/-- The successful list response body: the fetched page plus the
pagination metadata. `pages = none` stands for the non-finite number JS
produces when the parsed limit is 0 (`total/0` is Infinity or NaN,
serialized as null). -/
structure ListOk where
  data : List Product
  page : Int
  limit : Int
  total : Nat
  pages : Option Int
  deriving DecidableEq

/-- Outcome of `GET /api/products`. -/
inductive ListResult
  | ok (body : ListOk)
  | serverError (error : String)
  deriving DecidableEq

/-- The list route `GET /api/products`: build the filter and the skip/limit pair, fetch the
page (`find(filter).skip(skip).limit(limit).sort({createdAt: -1})`) and the
unrestricted count (`countDocuments(filter)`), and assemble the pagination
metadata with `pages = Math.ceil(total / limit)`. A negative skip is
rejected by the store, surfacing as the route's 500; a zero limit means
`no limit` to the store. -/
def listProducts (store : List Product) (q : ListQuery) : ListResult :=
  let spec := buildPagination q
  let matching := store.filter (matchesFilter q)
  if spec.skip < 0 then .serverError "Internal server error while fetching products"
  else
    let sorted := sortByCreatedDesc matching
    let dropped := sorted.drop spec.skip.toNat
    let pageItems := if spec.limit = 0 then dropped else dropped.take spec.limit.natAbs
    .ok ⟨pageItems, effPage q, effLimit q, matching.length,
         if spec.limit = 0 then none
         else some (jsCeilDiv (matching.length : Int) spec.limit)⟩

/-- Parse a run of decimal digit characters. -/
def digitsToNat (cs : List Char) : Nat :=
  cs.foldl (fun acc c => acc * 10 + (c.toNat - 48)) 0

/-- Gregorian leap year rule. -/
def isLeapYear (y : Nat) : Bool :=
  (y % 4 == 0 && y % 100 != 0) || y % 400 == 0

/-- Days in a month of the proleptic Gregorian calendar. -/
def daysInMonth (y m : Nat) : Nat :=
  if m == 2 then (if isLeapYear y then 29 else 28)
  else if m == 4 || m == 6 || m == 9 || m == 11 then 30
  else 31

/-- JS `new Date(s).getTime()` for the strict `YYYY-MM-DD` strings the schema
stores: UTC midnight of the calendar day, in an order-preserving integer
encoding of the timeline (`(y*10000 + m*100 + d) * msPerDay`, an order
isomorphism onto the real epoch values of valid dates). `none` is JS
Invalid Date, which every `<` comparison answers false. -/
def dateValue (s : String) : Option Int :=
  match s.data with
  | [y1, y2, y3, y4, h1, m1, m2, h2, d1, d2] =>
      if y1.isDigit && y2.isDigit && y3.isDigit && y4.isDigit && h1 == '-' &&
         m1.isDigit && m2.isDigit && h2 == '-' && d1.isDigit && d2.isDigit then
        let y := digitsToNat [y1, y2, y3, y4]
        let m := digitsToNat [m1, m2]
        let d := digitsToNat [d1, d2]
        if 1 ≤ m && m ≤ 12 && 1 ≤ d && d ≤ daysInMonth y m then
          some (((y * 10000 + m * 100 + d : Nat) : Int) * 86400000)
        else none
      else none
  | _ => none

/-- The `isExpired` virtual:
`if (!this.expiryDate) return false; return new Date(this.expiryDate) < new Date();`
— a pure function of the stored record and the current time, recomputed on
every read and never persisted. -/
def isExpired (p : Product) (now : Int) : Bool :=
  match p.expiryDate with
  | none => false
  | some s =>
      if s == "" then false
      else
        match dateValue s with
        | none => false
        | some t => decide (t < now)

/-- Number of items in a successful list response (0 on the error branch). -/
def ListResult.dataLength : ListResult → Nat
  | .ok r => r.data.length
  | .serverError _ => 0

/-- Whether the list request succeeded. -/
def ListResult.isOk : ListResult → Bool
  | .ok _ => true
  | .serverError _ => false

/-- A concrete stored product used by the concrete witnesses below. -/
def pMilk : Product where
  productId := "P001"
  name := "Milk"
  mrpPrice := 25
  image := "https://via.placeholder.com/100"
  stock := 5
  category := "Dairy"
  discounts := ""
  expiryDate := none
  createdAt := 0
  updatedAt := 0

/-- A concrete well-formed create body used by the concrete witnesses. -/
def bOnion : Body where
  productId := some "P010"
  name := some "Onion"
  mrpPrice := some 5
  stock := some 2

/-- A concrete create body violating two field constraints at once. -/
def bBadFields : Body where
  productId := some "P1"
  name := some "Rice"
  mrpPrice := some (-5)
  stock := some (-3)

/-- A concrete create body with a category outside the enumeration. -/
def bBadCat : Body where
  productId := some "P2"
  name := some "Bar"
  mrpPrice := some 1
  stock := some 1
  category := some "Candy"

/-- A store of `n` sample products with distinct creation times. -/
def sampleStore (n : Nat) : List Product :=
  (List.range n).map fun i =>
    { productId := "P", name := "Item", mrpPrice := 10, image := "img",
      stock := 1, category := "Other", discounts := "", expiryDate := none,
      createdAt := i, updatedAt := i }

end SmartGrocery

namespace SmartGrocery

/-- C3: the list route's limit defaults to 50 when the parameter is absent,
but no cap is applied: the configuration declares maxPageSize 100, yet a
request with limit 500 against 101 stored products passes limit 500 to the
page fetch and returns all 101 items, exceeding the claimed cap. -/
theorem limit_default_and_uncapped :
    effLimit {} = defaultPageSize ∧
    maxPageSize = 100 ∧
    (buildPagination { limit := some 500 }).limit = 500 ∧
    (listProducts (sampleStore 101) { limit := some 500 }).isOk = true ∧
    (listProducts (sampleStore 101) { limit := some 500 }).dataLength = 101 := by
  decide

/-- C4 counterexample: a list request with `page=0` is not normalized to the
defaults: the query builder hands the repository a skip of -50. -/
theorem pagination_not_normalized_cex :
    buildPagination { page := some 0 } = ⟨-50, 50⟩ ∧
    (buildPagination { page := some 0 }).skip < 0 := by
  decide

/-- C4 (amended): the list route applies the defaults page 1 / limit 50 only
to absent parameters; supplied values are passed through unnormalized as
`skip = (page-1)*limit` and `limit`, so any request with `page ≤ 0` and a
positive limit reaches the repository with a negative skip. -/
theorem pagination_passthrough (q : ListQuery) :
    (buildPagination q).skip = (effPage q - 1) * effLimit q ∧
    (buildPagination q).limit = effLimit q ∧
    (q.page = none → effPage q = 1) ∧
    (q.limit = none → effLimit q = defaultPageSize) ∧
    (∀ p, q.page = some p → p ≤ 0 → 0 < effLimit q → (buildPagination q).skip < 0) := by
  refine ⟨rfl, rfl, ?_, ?_, ?_⟩
  · intro h; simp [effPage, h]
  · intro h; simp [effLimit, defaultPageSize, h]
  · intro p hp hple hpos
    have hpage : effPage q = p := by simp [effPage, hp]
    show (effPage q - 1) * effLimit q < 0
    rw [hpage]
    exact mul_neg_of_neg_of_pos (by omega) hpos

/-- C4 witness: the amended statement instantiated at `page=0`. -/
theorem pagination_passthrough_witness :
    (buildPagination { page := some 0 }).skip < 0 :=
  (pagination_passthrough { page := some 0 }).2.2.2.2 0 rfl (by decide) (by decide)

/-- C9: the isExpired virtual is true exactly when an expiry date is present
(nonempty) and denotes a valid date strictly before the current time; an
absent expiryDate yields false; and the value is a pure function of the
stored expiryDate, recomputed against the supplied current time on every
read rather than stored. -/
theorem isExpired_characterization (p : Product) (now : Int) :
    (isExpired p now = true ↔
      ∃ s t, p.expiryDate = some s ∧ dateValue s = some t ∧ t < now) ∧
    (p.expiryDate = none → isExpired p now = false) ∧
    (∀ q : Product, q.expiryDate = p.expiryDate → isExpired q now = isExpired p now) := by
  refine ⟨⟨?_, ?_⟩, ?_, ?_⟩
  · intro h
    unfold isExpired at h
    split at h
    · exact absurd h Bool.false_ne_true
    next s heq =>
      split at h
      · exact absurd h Bool.false_ne_true
      next hne =>
        split at h
        · exact absurd h Bool.false_ne_true
        next t hdv => exact ⟨s, t, heq, hdv, by simpa using h⟩
  · rintro ⟨s, t, hed, hdv, hlt⟩
    simp only [isExpired, hed]
    have hs : ¬ (s == "") = true := by
      intro hb
      have hs' : s = "" := by simpa using hb
      subst hs'
      have : dateValue "" = none := rfl
      rw [this] at hdv
      cases hdv
    rw [if_neg hs, hdv]
    simpa using hlt
  · intro h
    unfold isExpired
    rw [h]
  · intro q hq
    unfold isExpired
    rw [hq]

/-- C9 witness: a past expiry date is expired and an absent one is not. -/
theorem isExpired_characterization_witness :
    isExpired { pMilk with expiryDate := some "2020-01-01" } (20260101 * 86400000) = true ∧
    isExpired pMilk 0 = false :=
  ⟨(isExpired_characterization { pMilk with expiryDate := some "2020-01-01" }
      (20260101 * 86400000)).1.mpr
      ⟨"2020-01-01", 20200101 * 86400000, rfl, by decide, by decide⟩,
   (isExpired_characterization pMilk 0).2.1 rfl⟩

/-- After removing the first (and, under a unique index, only) product with
a given id, a lookup for that id finds nothing. -/
theorem find?_removeFirstById_eq_none (a : String) (l : List Product)
    (uniq : (l.map (fun p => p.productId)).Nodup) :
    (removeFirstById a l).find? (fun p => p.productId == a) = none := by
  induction l with
  | nil => rfl
  | cons q rest ih =>
    have huniq : q.productId ∉ rest.map (fun p => p.productId) ∧
        (rest.map (fun p => p.productId)).Nodup := by
      simpa [List.nodup_cons] using uniq
    simp only [removeFirstById]
    by_cases hq : (q.productId == a) = true
    · rw [if_pos hq]
      have hqa : q.productId = a := by simpa using hq
      rw [List.find?_eq_none]
      intro p hp hpa
      have hpa' : p.productId = a := by simpa using hpa
      exact huniq.1 (by rw [hqa, ← hpa']; exact List.mem_map_of_mem _ hp)
    · rw [if_neg hq]
      have hq' : (q.productId == a) = false := by simpa using hq
      simp only [List.find?, hq']
      exact ih huniq.2

/-- C10: the get-by-id, update, and delete handlers all look up the product
by the trimmed path id, so two path ids that differ only in surrounding
whitespace address the same stored product: get and delete behave
identically on them, and so does update whenever the body carries no
productId (the update route's change-guard compares a body productId
against the raw path id before any lookup happens). -/
theorem handlers_trim_path_id (store : List Product) (id1 id2 : String)
    (h : jsTrim id1 = jsTrim id2) :
    getProduct store id1 = getProduct store id2 ∧
    deleteProduct store id1 = deleteProduct store id2 ∧
    (∀ (b : Body) (now : Nat), b.productId = none →
      updateProduct store id1 b now = updateProduct store id2 b now) := by
  refine ⟨?_, ?_, ?_⟩
  · simp only [getProduct, h]
  · simp only [deleteProduct, h]
  · intro b now hb
    simp only [updateProduct, patchErrors, applyPatch, hb, h]

/-- C10 witness: a surrounding-whitespace variant of an existing id behaves
like the plain id on all three handlers. -/
theorem handlers_trim_path_id_witness :
    getProduct [pMilk] " P001 " = getProduct [pMilk] "P001" ∧
    deleteProduct [pMilk] " P001 " = deleteProduct [pMilk] "P001" ∧
    updateProduct [pMilk] " P001 " { stock := some 3 } 1 =
      updateProduct [pMilk] "P001" { stock := some 3 } 1 :=
  ⟨(handlers_trim_path_id [pMilk] " P001 " "P001" (by decide)).1,
   (handlers_trim_path_id [pMilk] " P001 " "P001" (by decide)).2.1,
   (handlers_trim_path_id [pMilk] " P001 " "P001" (by decide)).2.2
     { stock := some 3 } 1 rfl⟩

/-- C8 counterexample: a delete whose id is blank (only whitespace) matches
no stored product, yet the route answers BadRequest 400, not NotFound. -/
theorem delete_blank_id_cex :
    deleteProduct ([] : List Product) " " = (.badRequest "Product ID is required", []) ∧
    (deleteProduct ([] : List Product) " ").1.status = 400 ∧
    ¬ (deleteProduct ([] : List Product) " ").1.status = 404 := by
  decide

/-- C8 (amended): for a non-blank id, deleting a nonexistent product returns
NotFound with the store unchanged; a successful delete returns the deleted
document, and a subsequent get for the same id returns NotFound. -/
theorem delete_semantics (store : List Product) (id : String)
    (hid : jsTrim id ≠ "")
    (uniq : (store.map (fun p => p.productId)).Nodup) :
    ((∀ p ∈ store, p.productId ≠ jsTrim id) →
      deleteProduct store id = (.notFound "Product not found", store)) ∧
    (∀ p store2, deleteProduct store id = (.deleted p, store2) →
      p ∈ store ∧ p.productId = jsTrim id ∧
      getProduct store2 id = .notFound "Product not found") := by
  constructor
  · intro habs
    simp only [deleteProduct, if_neg hid]
    have hnone : store.find? (fun p => p.productId == jsTrim id) = none := by
      rw [List.find?_eq_none]
      intro p hp hpa
      exact habs p hp (by simpa using hpa)
    rw [hnone]
  · intro p store2 hdel
    unfold deleteProduct at hdel
    rw [if_neg hid] at hdel
    cases hfind : store.find? (fun p => p.productId == jsTrim id) with
    | none =>
      rw [hfind] at hdel
      simp at hdel
    | some p' =>
      rw [hfind] at hdel
      injection hdel with h1 h2
      injection h1 with h1
      subst h1
      subst h2
      refine ⟨List.mem_of_find?_eq_some hfind, by simpa using List.find?_some hfind, ?_⟩
      simp only [getProduct, if_neg hid]
      rw [find?_removeFirstById_eq_none _ _ uniq]

/-- C8 witness: deleting a missing id is NotFound; deleting the stored
product returns it and the follow-up get is NotFound. -/
theorem delete_semantics_witness :
    deleteProduct [pMilk] "P999" = (.notFound "Product not found", [pMilk]) ∧
    (pMilk ∈ [pMilk] ∧ pMilk.productId = jsTrim "P001" ∧
      getProduct [] "P001" = .notFound "Product not found") :=
  ⟨(delete_semantics [pMilk] "P999" (by decide) (by decide)).1 (by decide),
   (delete_semantics [pMilk] "P001" (by decide) (by decide)).2 pMilk [] (by decide)⟩

/-- The document written by a single-document update is in the resulting
store whenever the lookup found a target. -/
theorem mem_replaceFirstById_of_find? (a : String) (x : Product) (l : List Product)
    (h : (l.find? (fun p => p.productId == a)).isSome = true) :
    x ∈ replaceFirstById a x l := by
  induction l with
  | nil => simp [List.find?] at h
  | cons q rest ih =>
    simp only [replaceFirstById]
    by_cases hq : (q.productId == a) = true
    · rw [if_pos hq]
      exact List.mem_cons_self _ _
    · rw [if_neg hq]
      have hq' : (q.productId == a) = false := by simpa using hq
      refine List.mem_cons_of_mem _ (ih ?_)
      simpa [List.find?, hq'] using h

/-- C1 counterexample: with `P001` stored, an update at path id ` P001 `
whose body carries the productId `""` — a productId different from the path
id — is not rejected: it succeeds with 200 and rewrites the document, and
the productId stored afterwards is the trimmed `"P001"`, not the path id
` P001 `. -/
theorem update_productId_cex :
    updateProduct [pMilk] " P001 " { productId := some "" } 1 =
      (.updated { pMilk with updatedAt := 1 }, [{ pMilk with updatedAt := 1 }]) ∧
    (updateProduct [pMilk] " P001 " { productId := some "" } 1).1.status = 200 ∧
    ({ pMilk with updatedAt := 1 } : Product).productId ≠ " P001 " := by
  decide

/-- C1 (amended): if the body carries a nonempty productId different from
the raw path id, the update answers 400 and leaves the store unchanged;
and every successful update stores the trimmed path id as the productId,
regardless of what the body contained. -/
theorem update_productId_guard (store : List Product) (id : String) (b : Body) (now : Nat) :
    (∀ pid, b.productId = some pid → pid ≠ "" → pid ≠ id →
      (updateProduct store id b now).1.status = 400 ∧
      (updateProduct store id b now).2 = store) ∧
    (∀ p, (updateProduct store id b now).1 = .updated p →
      p.productId = jsTrim id ∧ p ∈ (updateProduct store id b now).2) := by
  constructor
  · intro pid hpid hne hneid
    have hres : updateProduct store id b now = (.badRequestId "Product ID is required", store) ∨
        updateProduct store id b now =
          (.badRequestProductId "Cannot change product ID", store) := by
      by_cases hid : jsTrim id = ""
      · left
        simp [updateProduct, hid]
      · right
        simp only [updateProduct, if_neg hid, hpid]
        have hcond : (!(pid == "") && !(pid == id)) = true := by
          simp only [Bool.and_eq_true, Bool.not_eq_true']
          exact ⟨beq_eq_false_iff_ne.mpr hne, beq_eq_false_iff_ne.mpr hneid⟩
        rw [if_pos hcond]
    rcases hres with h | h <;> rw [h] <;> exact ⟨rfl, rfl⟩
  · intro p hupd
    unfold updateProduct at hupd ⊢
    by_cases hid : jsTrim id = ""
    · rw [if_pos hid] at hupd
      simp at hupd
    · rw [if_neg hid] at hupd ⊢
      by_cases hg : (match b.productId with
          | none => false
          | some pid => !(pid == "") && !(pid == id)) = true
      · rw [if_pos hg] at hupd
        simp at hupd
      · rw [if_neg hg] at hupd ⊢
        by_cases he : (patchErrors id b).isEmpty = true
        · rw [if_pos he] at hupd ⊢
          cases hfind : store.find? (fun p => p.productId == jsTrim id) with
          | none =>
            rw [hfind] at hupd
            simp at hupd
          | some p' =>
            rw [hfind] at hupd
            simp only at hupd
            injection hupd with hupd
            subst hupd
            refine ⟨rfl, ?_⟩
            exact mem_replaceFirstById_of_find? _ _ _ (by rw [hfind]; rfl)
        · rw [if_neg he] at hupd
          simp at hupd

/-- C1 witness: a body productId `P002` against path id `P001` is rejected
with 400 and the store is untouched; a body without productId updates
successfully and the stored productId is the trimmed path id. -/
theorem update_productId_guard_witness :
    ((updateProduct [pMilk] "P001" { productId := some "P002" } 1).1.status = 400 ∧
      (updateProduct [pMilk] "P001" { productId := some "P002" } 1).2 = [pMilk]) ∧
    ({ pMilk with stock := 3, updatedAt := 2 } : Product).productId = jsTrim "P001" :=
  ⟨(update_productId_guard [pMilk] "P001" { productId := some "P002" } 1).1
      "P002" rfl (by decide) (by decide),
   ((update_productId_guard [pMilk] "P001" { stock := some 3 } 2).2
      { pMilk with stock := 3, updatedAt := 2 } (by decide)).1⟩

/-- C2 counterexample: a create request whose productId equals the stored
`P001` but whose body lacks the other required fields is answered 400 for
the missing fields, not 409 Conflict, although its productId equals that of
an already-stored product. -/
theorem create_duplicate_cex :
    createProduct [pMilk] { productId := some "P001" } 0 =
      (.missingFields
        "Missing required fields: productId, name, mrpPrice, and stock are required",
        [pMilk]) ∧
    (createProduct [pMilk] { productId := some "P001" } 0).1.status = 400 ∧
    ¬ (createProduct [pMilk] { productId := some "P001" } 0).1.status = 409 := by
  decide

/-- C2 (amended): for create requests that pass the required-field presence
pre-check, a productId equal to an already-stored product's id is answered
Conflict with the store unchanged; and after any successful create,
re-running the same create is answered Conflict (through the pre-check or
the unique-index duplicate error) and inserts nothing — so two same-id
creates yield exactly one success and one Conflict. -/
theorem create_duplicate_conflict (store : List Product) (b : Body) (now now2 : Nat)
    (hreq : missingRequired b = false) :
    (∀ pid, b.productId = some pid → (∃ p ∈ store, p.productId = pid) →
      createProduct store b now =
        (.conflict "Product with this ID already exists", store)) ∧
    (∀ p store2, createProduct store b now = (.created p, store2) →
      createProduct store2 b now2 =
        (.conflict "Product with this ID already exists", store2)) := by
  constructor
  · rintro pid hpid ⟨q, hq, hqe⟩
    have hany : store.any (fun p => p.productId == b.productId.getD "") = true := by
      rw [List.any_eq_true]
      exact ⟨q, hq, by simp [hpid, hqe]⟩
    simp [createProduct, hreq, hany]
  · intro p store2 hcre
    unfold createProduct at hcre
    rw [hreq] at hcre
    simp only [Bool.false_eq_true, if_false] at hcre
    by_cases hany : store.any (fun p => p.productId == b.productId.getD "") = true
    · rw [if_pos hany] at hcre
      simp at hcre
    · rw [if_neg hany] at hcre
      by_cases hemp : (fieldErrors (mkDoc b now)).isEmpty = true
      · rw [if_pos hemp] at hcre
        by_cases hany2 : store.any (fun p => p.productId == (mkDoc b now).productId) = true
        · rw [if_pos hany2] at hcre
          simp at hcre
        · rw [if_neg hany2] at hcre
          have hp : p = mkDoc b now := by
            have := congrArg Prod.fst hcre
            simpa using this.symm
          have hstore2 : store2 = store ++ [mkDoc b now] := by
            have := congrArg Prod.snd hcre
            simpa using this.symm
          subst hstore2
          unfold createProduct
          rw [hreq]
          simp only [Bool.false_eq_true, if_false]
          by_cases hany3 :
              (store ++ [mkDoc b now]).any
                (fun p => p.productId == b.productId.getD "") = true
          · rw [if_pos hany3]
          · rw [if_neg hany3]
            have hemp2 : (fieldErrors (mkDoc b now2)).isEmpty = true := by
              have hfe : fieldErrors (mkDoc b now2) = fieldErrors (mkDoc b now) := rfl
              rw [hfe]
              exact hemp
            rw [if_pos hemp2]
            have hany4 : (store ++ [mkDoc b now]).any
                (fun p => p.productId == (mkDoc b now2).productId) = true := by
              rw [List.any_eq_true]
              refine ⟨mkDoc b now, by simp, ?_⟩
              show ((mkDoc b now).productId == (mkDoc b now2).productId) = true
              exact beq_self_eq_true (mkDoc b now).productId
            rw [if_pos hany4]
      · rw [if_neg hemp] at hcre
        simp at hcre

/-- C2 witness: with `P001` stored, a well-formed create for `P001` is
Conflict with the store unchanged; after a successful create of `P010`
into an empty store, repeating the same create is Conflict and inserts
nothing. -/
theorem create_duplicate_conflict_witness :
    createProduct [pMilk]
        { productId := some "P001", name := some "Paneer", mrpPrice := some 30,
          stock := some 1 } 5 =
      (.conflict "Product with this ID already exists", [pMilk]) ∧
    createProduct [mkDoc bOnion 0] bOnion 1 =
      (.conflict "Product with this ID already exists", [mkDoc bOnion 0]) :=
  ⟨(create_duplicate_conflict [pMilk]
      { productId := some "P001", name := some "Paneer", mrpPrice := some 30,
        stock := some 1 } 5 0 (by decide)).1 "P001" rfl ⟨pMilk, by decide, rfl⟩,
   (create_duplicate_conflict [] bOnion 0 1 (by decide)).2 (mkDoc bOnion 0)
      [mkDoc bOnion 0] (by decide)⟩

/-- Past the presence and duplicate pre-checks, a create whose document
fails mongoose validation returns 400 with the collected details list and
leaves the store unchanged. -/
theorem createProduct_validation (store : List Product) (b : Body) (now : Nat)
    (h1 : missingRequired b = false)
    (h2 : store.any (fun p => p.productId == b.productId.getD "") = false)
    (h3 : fieldErrors (mkDoc b now) ≠ []) :
    createProduct store b now =
      (.validationFailed "Validation failed" (fieldErrors (mkDoc b now)), store) := by
  unfold createProduct
  rw [h1, h2]
  simp only [Bool.false_eq_true, if_false]
  have hne : ¬ (fieldErrors (mkDoc b now)).isEmpty = true := by
    cases hfe : fieldErrors (mkDoc b now) with
    | nil => exact absurd hfe h3
    | cons a l => intro hh; simp at hh
  rw [if_neg hne]

/-- An update whose patch fails the update validators returns 400 with the
collected details list and leaves the store unchanged. -/
theorem updateProduct_validation (store : List Product) (id : String) (b : Body) (now : Nat)
    (hid : jsTrim id ≠ "")
    (hg : (match b.productId with
           | none => false
           | some pid => !(pid == "") && !(pid == id)) = false)
    (hne : patchErrors id b ≠ []) :
    updateProduct store id b now =
      (.validationFailed "Validation failed" (patchErrors id b), store) := by
  unfold updateProduct
  rw [if_neg hid, hg]
  simp only [Bool.false_eq_true, if_false]
  have hne' : ¬ (patchErrors id b).isEmpty = true := by
    cases hpe : patchErrors id b with
    | nil => exact absurd hpe hne
    | cons a l => intro hh; simp at hh
  rw [if_neg hne']

/-- C5 counterexample: a create body violating two field constraints (name
missing, negative price — stock is also absent) is answered by the presence
pre-check with one aggregate error string and no details list at all, even
though mongoose validation of the same document would report a message per
violated field. -/
theorem validation_details_cex :
    createProduct [] { productId := some "P1", mrpPrice := some (-5) } 0 =
      (.missingFields
        "Missing required fields: productId, name, mrpPrice, and stock are required", []) ∧
    fieldErrors (mkDoc { productId := some "P1", mrpPrice := some (-5) } 0) =
      ["Product name is required", "Price cannot be negative"] := by
  decide

/-- C5 (amended): create inputs failing the presence pre-check get a single
aggregate 400 without per-field details; past that pre-check, a validation
failure on create or update returns BadRequest carrying the collected
details list, and that list holds a message for every violated field
(price, stock, category shown here), not only the first. -/
theorem validation_details_collect_all (store : List Product) (id : String) (b : Body)
    (now : Nat) :
    (missingRequired b = false →
      store.any (fun p => p.productId == b.productId.getD "") = false →
      fieldErrors (mkDoc b now) ≠ [] →
      createProduct store b now =
        (.validationFailed "Validation failed" (fieldErrors (mkDoc b now)), store)) ∧
    ((mkDoc b now).mrpPrice < 0 →
      "Price cannot be negative" ∈ fieldErrors (mkDoc b now)) ∧
    ((mkDoc b now).stock < 0 →
      "Stock cannot be negative" ∈ fieldErrors (mkDoc b now)) ∧
    ((mkDoc b now).category ∉ categories →
      "Category must be one of the predefined values" ∈ fieldErrors (mkDoc b now)) ∧
    (jsTrim id ≠ "" →
      (match b.productId with
        | none => false
        | some pid => !(pid == "") && !(pid == id)) = false →
      patchErrors id b ≠ [] →
      updateProduct store id b now =
        (.validationFailed "Validation failed" (patchErrors id b), store)) ∧
    (∀ v, b.mrpPrice = some v → v < 0 →
      "Price cannot be negative" ∈ patchErrors id b) ∧
    (∀ v, b.stock = some v → v < 0 →
      "Stock cannot be negative" ∈ patchErrors id b) := by
  refine ⟨createProduct_validation store b now, ?_, ?_, ?_,
    updateProduct_validation store id b now, ?_, ?_⟩
  · intro h
    have hp : priceErrors (mkDoc b now) = ["Price cannot be negative"] := by
      simp [priceErrors, h]
    simp [fieldErrors, hp]
  · intro h
    have hp : stockErrors (mkDoc b now) = ["Stock cannot be negative"] := by
      simp [stockErrors, h]
    simp [fieldErrors, hp]
  · intro h
    have hp : categoryErrors (mkDoc b now) =
        ["Category must be one of the predefined values"] := by
      simp [categoryErrors, h]
    simp [fieldErrors, hp]
  · intro v hv hneg
    have hp : (match b.mrpPrice with
        | none => []
        | some v => if v < 0 then ["Price cannot be negative"] else []) =
        ["Price cannot be negative"] := by
      rw [hv]
      simp [hneg]
    simp [patchErrors, hp]
  · intro v hv hneg
    have hp : (match b.stock with
        | none => []
        | some v => if v < 0 then ["Stock cannot be negative"] else []) =
        ["Stock cannot be negative"] := by
      rw [hv]
      simp [hneg]
    simp [patchErrors, hp]

/-- C5 witness: a body with a negative price and a negative stock is
rejected with the collected details list containing both messages. -/
theorem validation_details_collect_all_witness :
    createProduct [] bBadFields 0 =
      (.validationFailed "Validation failed" (fieldErrors (mkDoc bBadFields 0)), []) ∧
    "Price cannot be negative" ∈ fieldErrors (mkDoc bBadFields 0) ∧
    "Stock cannot be negative" ∈ fieldErrors (mkDoc bBadFields 0) :=
  ⟨(validation_details_collect_all [] "P1" bBadFields 0).1 (by decide) (by decide)
      (by decide),
   (validation_details_collect_all [] "P1" bBadFields 0).2.1 (by decide),
   (validation_details_collect_all [] "P1" bBadFields 0).2.2.1 (by decide)⟩

/-- Members of the store after a single-document replace are the new
document or prior members. -/
theorem mem_of_mem_replaceFirstById (a : String) (x q : Product) (l : List Product)
    (h : q ∈ replaceFirstById a x l) : q = x ∨ q ∈ l := by
  induction l with
  | nil => simp [replaceFirstById] at h
  | cons r rest ih =>
    simp only [replaceFirstById] at h
    by_cases hr : (r.productId == a) = true
    · rw [if_pos hr] at h
      rcases List.mem_cons.mp h with h | h
      · exact .inl h
      · exact .inr (List.mem_cons_of_mem _ h)
    · rw [if_neg hr] at h
      rcases List.mem_cons.mp h with h | h
      · exact .inr (h ▸ List.mem_cons_self _ _)
      · rcases ih h with h | h
        · exact .inl h
        · exact .inr (List.mem_cons_of_mem _ h)

/-- Members of the store after a single-document delete were members
before. -/
theorem mem_of_mem_removeFirstById (a : String) (q : Product) (l : List Product)
    (h : q ∈ removeFirstById a l) : q ∈ l := by
  induction l with
  | nil => simp [removeFirstById] at h
  | cons r rest ih =>
    simp only [removeFirstById] at h
    by_cases hr : (r.productId == a) = true
    · rw [if_pos hr] at h
      exact List.mem_cons_of_mem _ h
    · rw [if_neg hr] at h
      rcases List.mem_cons.mp h with h | h
      · exact h ▸ List.mem_cons_self _ _
      · exact List.mem_cons_of_mem _ (ih h)

/-- A document that passes full validation has its category inside the
enumeration. -/
theorem category_mem_of_fieldErrors_nil (d : Product) (h : fieldErrors d = []) :
    d.category ∈ categories := by
  unfold fieldErrors at h
  simp only [List.append_eq_nil] at h
  have hcat := h.1.2
  unfold categoryErrors at hcat
  by_cases hmem : d.category ∈ categories
  · exact hmem
  · rw [if_neg hmem] at hcat
    cases hcat

/-- A patch that passes the update validators only carries categories
inside the enumeration. -/
theorem category_mem_of_patchErrors_nil (id : String) (b : Body)
    (h : patchErrors id b = []) :
    ∀ c, b.category = some c → jsTrim c ∈ categories := by
  intro c hc
  unfold patchErrors at h
  rw [hc] at h
  simp only [List.append_eq_nil] at h
  have hcat := h.1.2
  by_cases hmem : jsTrim c ∈ categories
  · exact hmem
  · rw [if_neg hmem] at hcat
    cases hcat

/-- An out-of-enumeration category contributes its message to the update
validators' collected list. -/
theorem mem_patchErrors_category (id : String) (b : Body) (c : String)
    (hc : b.category = some c) (hmem : jsTrim c ∉ categories) :
    "Category must be one of the predefined values" ∈ patchErrors id b := by
  have hp : (match b.category with
      | none => []
      | some c => if jsTrim c ∈ categories then []
                  else ["Category must be one of the predefined values"]) =
      ["Category must be one of the predefined values"] := by
    rw [hc]
    simp [hmem]
  simp [patchErrors, hp]

/-- C7: every stored category is in the fixed enumeration. A create past
the pre-checks that supplies an out-of-enumeration category is rejected
with the category validation message; an update supplying one is a 400
no-op; the default Other is stored only when the category is absent, and a
supplied category is stored as given (trimmed), never coerced; and
create, update and delete each preserve the invariant that every stored
product's category is in the enumeration. -/
theorem category_enum_invariant (store : List Product) (id : String) (b : Body) (now : Nat)
    (inv : ∀ p ∈ store, p.category ∈ categories) :
    (∀ c, b.category = some c → jsTrim c ∉ categories →
      missingRequired b = false →
      store.any (fun p => p.productId == b.productId.getD "") = false →
      createProduct store b now =
        (.validationFailed "Validation failed" (fieldErrors (mkDoc b now)), store) ∧
      "Category must be one of the predefined values" ∈ fieldErrors (mkDoc b now)) ∧
    (∀ c, b.category = some c → jsTrim c ∉ categories →
      (updateProduct store id b now).1.status = 400 ∧
      (updateProduct store id b now).2 = store) ∧
    (∀ p store2, createProduct store b now = (.created p, store2) →
      (b.category = none → p.category = "Other") ∧
      (∀ c, b.category = some c → p.category = jsTrim c) ∧
      (∀ q ∈ store2, q.category ∈ categories)) ∧
    (∀ q ∈ (updateProduct store id b now).2, q.category ∈ categories) ∧
    (∀ q ∈ (deleteProduct store id).2, q.category ∈ categories) := by
  refine ⟨?_, ?_, ?_, ?_, ?_⟩
  · intro c hc hmem hreq hany
    have hcat : (mkDoc b now).category = jsTrim c := by
      show (b.category.map jsTrim).getD "Other" = jsTrim c
      rw [hc]
      rfl
    have hcaterr : categoryErrors (mkDoc b now) =
        ["Category must be one of the predefined values"] := by
      simp [categoryErrors, hcat, hmem]
    have hmemf : "Category must be one of the predefined values" ∈
        fieldErrors (mkDoc b now) := by
      simp [fieldErrors, hcaterr]
    exact ⟨createProduct_validation store b now hreq hany (List.ne_nil_of_mem hmemf), hmemf⟩
  · intro c hc hmem
    unfold updateProduct
    by_cases hid : jsTrim id = ""
    · rw [if_pos hid]
      exact ⟨rfl, rfl⟩
    · rw [if_neg hid]
      by_cases hg : (match b.productId with
          | none => false
          | some pid => !(pid == "") && !(pid == id)) = true
      · rw [if_pos hg]
        exact ⟨rfl, rfl⟩
      · rw [if_neg hg]
        have hne : ¬ (patchErrors id b).isEmpty = true := by
          have hin := mem_patchErrors_category id b c hc hmem
          cases hpe : patchErrors id b with
          | nil => rw [hpe] at hin; cases hin
          | cons a l => intro hh; simp at hh
        rw [if_neg hne]
        exact ⟨rfl, rfl⟩
  · intro p store2 hcre
    unfold createProduct at hcre
    by_cases hreq : missingRequired b = true
    · rw [if_pos hreq] at hcre
      simp at hcre
    · rw [if_neg hreq] at hcre
      by_cases hany : store.any (fun p => p.productId == b.productId.getD "") = true
      · rw [if_pos hany] at hcre
        simp at hcre
      · rw [if_neg hany] at hcre
        by_cases hemp : (fieldErrors (mkDoc b now)).isEmpty = true
        · rw [if_pos hemp] at hcre
          by_cases hany2 : store.any (fun p => p.productId == (mkDoc b now).productId) = true
          · rw [if_pos hany2] at hcre
            simp at hcre
          · rw [if_neg hany2] at hcre
            have hp : p = mkDoc b now := by
              have := congrArg Prod.fst hcre
              simpa using this.symm
            have hstore2 : store2 = store ++ [mkDoc b now] := by
              have := congrArg Prod.snd hcre
              simpa using this.symm
            have hfe : fieldErrors (mkDoc b now) = [] := by
              cases hfe0 : fieldErrors (mkDoc b now) with
              | nil => rfl
              | cons a l => rw [hfe0] at hemp; simp at hemp
            subst hp
            subst hstore2
            refine ⟨?_, ?_, ?_⟩
            · intro hc
              show (b.category.map jsTrim).getD "Other" = "Other"
              rw [hc]
              rfl
            · intro c hc
              show (b.category.map jsTrim).getD "Other" = jsTrim c
              rw [hc]
              rfl
            · intro q hq
              rcases List.mem_append.mp hq with h | h
              · exact inv q h
              · have hq2 : q = mkDoc b now := by simpa using h
                rw [hq2]
                exact category_mem_of_fieldErrors_nil _ hfe
        · rw [if_neg hemp] at hcre
          simp at hcre
  · intro q hq
    unfold updateProduct at hq
    by_cases hid : jsTrim id = ""
    · rw [if_pos hid] at hq
      exact inv q hq
    · rw [if_neg hid] at hq
      by_cases hg : (match b.productId with
          | none => false
          | some pid => !(pid == "") && !(pid == id)) = true
      · rw [if_pos hg] at hq
        exact inv q hq
      · rw [if_neg hg] at hq
        by_cases hemp : (patchErrors id b).isEmpty = true
        · rw [if_pos hemp] at hq
          cases hfind : store.find? (fun p => p.productId == jsTrim id) with
          | none =>
            rw [hfind] at hq
            exact inv q hq
          | some p' =>
            rw [hfind] at hq
            simp only at hq
            rcases mem_of_mem_replaceFirstById _ _ _ _ hq with h | h
            · have hpe : patchErrors id b = [] := by
                cases hpe0 : patchErrors id b with
                | nil => rfl
                | cons a l => rw [hpe0] at hemp; simp at hemp
              subst h
              show (b.category.map jsTrim).getD p'.category ∈ categories
              cases hc : b.category with
              | none =>
                exact inv p' (List.mem_of_find?_eq_some hfind)
              | some c =>
                exact category_mem_of_patchErrors_nil id b hpe c hc
            · exact inv q h
        · rw [if_neg hemp] at hq
          exact inv q hq
  · intro q hq
    unfold deleteProduct at hq
    by_cases hid : jsTrim id = ""
    · rw [if_pos hid] at hq
      exact inv q hq
    · rw [if_neg hid] at hq
      cases hfind : store.find? (fun p => p.productId == jsTrim id) with
      | none =>
        rw [hfind] at hq
        exact inv q hq
      | some p' =>
        rw [hfind] at hq
        simp only at hq
        exact inv q (mem_of_mem_removeFirstById _ _ _ hq)

/-- C7 witness: the invalid category `Candy` is rejected on create with the
category message and on update as a 400 no-op, and an absent category is
stored as Other. -/
theorem category_enum_invariant_witness :
    (createProduct [pMilk] bBadCat 0 =
        (.validationFailed "Validation failed" (fieldErrors (mkDoc bBadCat 0)), [pMilk]) ∧
      "Category must be one of the predefined values" ∈ fieldErrors (mkDoc bBadCat 0)) ∧
    ((updateProduct [pMilk] "P001" { category := some "Candy" } 1).1.status = 400 ∧
      (updateProduct [pMilk] "P001" { category := some "Candy" } 1).2 = [pMilk]) ∧
    (mkDoc bOnion 0).category = "Other" :=
  ⟨(category_enum_invariant [pMilk] "P001" bBadCat 0 (by decide)).1 "Candy" rfl
      (by decide) (by decide) (by decide),
   (category_enum_invariant [pMilk] "P001" { category := some "Candy" } 1 (by decide)).2.1
      "Candy" rfl (by decide),
   ((category_enum_invariant [] "P010" bOnion 0 (by decide)).2.2.1 (mkDoc bOnion 0)
      [mkDoc bOnion 0] (by decide)).1 rfl⟩

/-- JS `Math.ceil(a / b)` with a positive divisor is characterized by the
usual ceiling bounds. -/
theorem jsCeilDiv_bounds (a b : Int) (hb : 0 < b) :
    (jsCeilDiv a b - 1) * b < a ∧ a ≤ jsCeilDiv a b * b := by
  have hbne : b ≠ 0 := ne_of_gt hb
  have hn : jsCeilDiv a b = -((-a) / b) := by
    unfold jsCeilDiv
    rw [Int.fdiv_eq_ediv _ (le_of_lt hb)]
  have h1 : b * ((-a) / b) + (-a) % b = -a := Int.ediv_add_emod (-a) b
  have hr0 : 0 ≤ (-a) % b := Int.emod_nonneg (-a) hbne
  have hrb : (-a) % b < b := Int.emod_lt_of_pos (-a) hb
  constructor
  · rw [hn]
    nlinarith
  · rw [hn]
    nlinarith

/-- C6 counterexample: with limit 0 the list request succeeds but its pages
metadatum is the non-finite JS value (serialized null), not a ceiling; and
with page 0 a request whose filter matches nothing is answered 500, not an
empty success. -/
theorem list_pagination_cex :
    listProducts [pMilk] { limit := some 0 } = .ok ⟨[pMilk], 1, 0, 1, none⟩ ∧
    listProducts ([] : List Product) { page := some 0 } =
      .serverError "Internal server error while fetching products" := by
  decide

/-- C6 (amended): for every list request that succeeds, total is the count
of all products matching the filter — independent of the page/limit
parameters — and, when the applied limit is positive, pages is the ceiling
of total/limit; a filter matching no products under such parameters yields
success with an empty data list and total 0. -/
theorem list_pagination_metadata (store : List Product) (q : ListQuery) (r : ListOk)
    (h : listProducts store q = .ok r) :
    r.total = (store.filter (matchesFilter q)).length ∧
    (0 < r.limit → ∃ n, r.pages = some n ∧
      (n - 1) * r.limit < (r.total : Int) ∧ (r.total : Int) ≤ n * r.limit) ∧
    ((store.filter (matchesFilter q)).length = 0 → r.data = [] ∧ r.total = 0) ∧
    (∀ pg lim r2, listProducts store { q with page := pg, limit := lim } = .ok r2 →
      r2.total = r.total) := by
  unfold listProducts at h
  by_cases hskip : (buildPagination q).skip < 0
  · rw [if_pos hskip] at h
    simp at h
  · rw [if_neg hskip] at h
    injection h with h
    subst h
    refine ⟨rfl, ?_, ?_, ?_⟩
    · intro hlim
      have hlim' : 0 < effLimit q := hlim
      have hz : ¬ ((buildPagination q).limit = 0) := by
        have hbq : (buildPagination q).limit = effLimit q := rfl
        omega
      refine ⟨jsCeilDiv ((store.filter (matchesFilter q)).length : Int) (effLimit q),
        ?_, ?_, ?_⟩
      · show (if (buildPagination q).limit = 0 then none
            else some (jsCeilDiv ((store.filter (matchesFilter q)).length : Int)
              (buildPagination q).limit)) = _
        rw [if_neg hz]
        rfl
      · exact (jsCeilDiv_bounds ((store.filter (matchesFilter q)).length : Int)
          (effLimit q) hlim').1
      · exact (jsCeilDiv_bounds ((store.filter (matchesFilter q)).length : Int)
          (effLimit q) hlim').2
    · intro h0
      have hm : store.filter (matchesFilter q) = [] := List.length_eq_zero.mp h0
      constructor
      · show (if (buildPagination q).limit = 0 then
            (sortByCreatedDesc (store.filter (matchesFilter q))).drop
              (buildPagination q).skip.toNat
          else ((sortByCreatedDesc (store.filter (matchesFilter q))).drop
              (buildPagination q).skip.toNat).take (buildPagination q).limit.natAbs) = []
        rw [hm]
        by_cases hz : (buildPagination q).limit = 0
        · rw [if_pos hz]
          simp [sortByCreatedDesc]
        · rw [if_neg hz]
          simp [sortByCreatedDesc]
      · exact h0
    · intro pg lim r2 h2
      unfold listProducts at h2
      by_cases hskip2 : (buildPagination { q with page := pg, limit := lim }).skip < 0
      · rw [if_pos hskip2] at h2
        simp at h2
      · rw [if_neg hskip2] at h2
        injection h2 with h2
        subst h2
        rfl

/-- C6 witness: page 1 / limit 2 over one matching product gives total 1
and pages 1 within the ceiling bounds; an empty store lists successfully
with an empty page and total 0. -/
theorem list_pagination_metadata_witness :
    (∃ n, (⟨[pMilk], 1, 2, 1, some 1⟩ : ListOk).pages = some n ∧
      (n - 1) * (⟨[pMilk], 1, 2, 1, some 1⟩ : ListOk).limit <
        ((⟨[pMilk], 1, 2, 1, some 1⟩ : ListOk).total : Int) ∧
      ((⟨[pMilk], 1, 2, 1, some 1⟩ : ListOk).total : Int) ≤
        n * (⟨[pMilk], 1, 2, 1, some 1⟩ : ListOk).limit) ∧
    ((⟨[], 1, 50, 0, some 0⟩ : ListOk).data = [] ∧
      (⟨[], 1, 50, 0, some 0⟩ : ListOk).total = 0) :=
  ⟨(list_pagination_metadata [pMilk] { page := some 1, limit := some 2 }
      ⟨[pMilk], 1, 2, 1, some 1⟩ (by decide)).2.1 (by decide),
   (list_pagination_metadata ([] : List Product) {} ⟨[], 1, 50, 0, some 0⟩
      (by decide)).2.2.1 (by decide)⟩


end SmartGrocery

